import Mathlib

/-!
Verification of the diffpy.srfit expression, parameter and visitor layer
against its natural-language specification.  The definitions below are
shallow embeddings of the Python sources under src/diffpy/srfit; each
claim theorem names the claim it settles.
-/

/-- Environment assigning a rational value to every named leaf node of an
equation.  Leaf values in the Python code are numbers owned by Argument
objects; here they are read off a total map from leaf names. -/
abbrev Env := String → ℚ

/-- Expression nodes, embedding the equation graphs built by
src/diffpy/srfit/fit/restrain.py and by the constraint machinery:
constants, named leaves, subtraction, multiplication, pairwise maximum
and division nodes. -/
inductive Expr where
  | const : ℚ → Expr
  | var : String → Expr
  | sub : Expr → Expr → Expr
  | mul : Expr → Expr → Expr
  | emax : Expr → Expr → Expr
  | div : Expr → Expr → Expr
  deriving DecidableEq, Repr

/-- Evaluation of an expression node under an environment.  Division by
zero fails (ZeroDivisionError in Python), modelled by none; every other
node evaluates to the pure arithmetic combination of its children. -/
def evalExpr : Expr → Env → Option ℚ
  | Expr.const c, _ => some c
  | Expr.var n, env => some (env n)
  | Expr.sub a b, env =>
      match evalExpr a env, evalExpr b env with
      | some x, some y => some (x - y)
      | _, _ => none
  | Expr.mul a b, env =>
      match evalExpr a env, evalExpr b env with
      | some x, some y => some (x * y)
      | _, _ => none
  | Expr.emax a b, env =>
      match evalExpr a env, evalExpr b env with
      | some x, some y => some (max x y)
      | _, _ => none
  | Expr.div a b, env =>
      match evalExpr a env, evalExpr b env with
      | some x, some y => if y = 0 then none else some (x / y)
      | _, _ => none

/-- Embedding of restrain (src/diffpy/srfit/fit/restrain.py, lines 19-38):
if ub is None it is set equal to lb, and the returned node is
maximum_(lb - eq, maximum_(0, eq - ub)) / sig.  The function performs no
validation of sig; it only builds and returns the node (the display name
"restraint" given to the node is presentation only and is not modelled). -/
def restrain (eq : Expr) (lb : ℚ) (ub : Option ℚ) (sig : ℚ) : Expr :=
  let u := ub.getD lb
  Expr.div
    (Expr.emax (Expr.sub (Expr.const lb) eq)
      (Expr.emax (Expr.const 0) (Expr.sub eq (Expr.const u))))
    (Expr.const sig)

/-- C1 counterexample: calling restrain with sigma equal to 0 does not
fail at the call; it returns the restraint node, and the division by zero
is met only at evaluation time, where evaluation of the node fails. -/
theorem restrain_sigma_zero_counterexample :
    restrain (Expr.var "x") 0 none 0
        = Expr.div
            (Expr.emax (Expr.sub (Expr.const 0) (Expr.var "x"))
              (Expr.emax (Expr.const 0) (Expr.sub (Expr.var "x") (Expr.const 0))))
            (Expr.const 0)
      ∧ evalExpr (restrain (Expr.var "x") 0 none 0) (fun _ => 1) = none :=
  ⟨rfl, by decide⟩

/-- C1 amended: restrain performs no sigma validation.  For every
equation and bounds, calling restrain with sigma equal to 0 succeeds and
returns the restraint node maximum(lb - eq, maximum(0, eq - ub))/sigma;
the division by zero is deferred to evaluation time, where evaluation of
the returned node fails for every environment. -/
theorem restrain_sigma_zero_defers (eq : Expr) (lb : ℚ) (ub : Option ℚ)
    (env : Env) :
    restrain eq lb ub 0
        = Expr.div
            (Expr.emax (Expr.sub (Expr.const lb) eq)
              (Expr.emax (Expr.const 0) (Expr.sub eq (Expr.const (ub.getD lb)))))
            (Expr.const 0)
      ∧ evalExpr (restrain eq lb ub 0) env = none := by
  refine ⟨rfl, ?_⟩
  cases h : evalExpr eq env with
  | none => simp [restrain, evalExpr, h]
  | some x => simp [restrain, evalExpr, h]

/-- C2: with a nonzero sigma, the restraint built by restrain evaluates
to max(0, lb - v, v - ub)/sigma, where v is the value of the restrained
equation and ub defaults to lb when absent; the penalty is zero whenever
v lies in [lb, ub], equals (lb - v)/sigma when v < lb, and equals
(v - ub)/sigma when v > ub. -/
theorem restrain_penalty_correct (eq : Expr) (lb sig : ℚ) (ub : Option ℚ)
    (env : Env) (v : ℚ) (hv : evalExpr eq env = some v) (hsig : sig ≠ 0) :
    evalExpr (restrain eq lb ub sig) env
        = some (max 0 (max (lb - v) (v - ub.getD lb)) / sig)
      ∧ (lb ≤ v → v ≤ ub.getD lb →
          evalExpr (restrain eq lb ub sig) env = some 0)
      ∧ (v < lb → lb ≤ ub.getD lb →
          evalExpr (restrain eq lb ub sig) env = some ((lb - v) / sig))
      ∧ (ub.getD lb < v → lb ≤ ub.getD lb →
          evalExpr (restrain eq lb ub sig) env = some ((v - ub.getD lb) / sig)) := by
  have hmain : evalExpr (restrain eq lb ub sig) env
      = some (max (lb - v) (max 0 (v - ub.getD lb)) / sig) := by
    simp [restrain, evalExpr, hv, hsig]
  refine ⟨?_, ?_, ?_, ?_⟩
  · rw [hmain, max_left_comm]
  · intro h1 h2
    rw [hmain, show max (0:ℚ) (v - ub.getD lb) = 0 from max_eq_left (by linarith),
      show max (lb - v) (0:ℚ) = 0 from max_eq_right (by linarith), zero_div]
  · intro h1 h2
    rw [hmain, show max (0:ℚ) (v - ub.getD lb) = 0 from max_eq_left (by linarith),
      show max (lb - v) (0:ℚ) = lb - v from max_eq_left (by linarith)]
  · intro h1 h2
    rw [hmain,
      show max (0:ℚ) (v - ub.getD lb) = v - ub.getD lb from max_eq_right (by linarith),
      show max (lb - v) (v - ub.getD lb) = v - ub.getD lb from max_eq_right (by linarith)]

/-- C2 witness: restraining x to [0, 10] with sigma 1 in an environment
where x is 11 gives penalty 1. -/
theorem restrain_penalty_correct_witness :
    evalExpr (restrain (Expr.var "x") 0 (some 10) 1) (fun _ => 11) = some 1 := by
  have h := (restrain_penalty_correct (Expr.var "x") 0 1 (some 10) (fun _ => 11) 11
      rfl one_ne_zero).2.2.2 (by norm_num) (by norm_num)
  norm_num at h
  exact h

/-- State of a fitbase Parameter (src/diffpy/srfit/fitbase/parameter.py).
`_value` is the stored value and `const` the constant flag, both owned by
the Argument base class (equation/literals/argument.py, whose value
storage is not under src/ and is modelled from the parameter.py
docstrings: _value is the value of the Parameter, modified with
setValue).  `constraint` embeds the Parameter.constraint attribute (None
becomes none); `constrained` embeds the flag read and set by
Constraint.constrain and Constraint.unconstrain (constraint.py);
`observed` records whether eq.addObserver(self._flush) is currently
registered with the constraint equation.  The logical clock is not
modelled; _flush and notify only touch the clock and observers. -/
structure Parameter where
  _value : ℚ
  const : Bool
  constrained : Bool
  constraint : Option Expr
  observed : Bool
  deriving DecidableEq, Repr

/-- Argument.setValue stores the value (notification and the clock click
are not modelled). -/
def Parameter.setValue (p : Parameter) (v : ℚ) : Parameter :=
  ⟨v, p.const, p.constrained, p.constraint, p.observed⟩

/-- Parameter.constrain (parameter.py, lines 70-83): stores eq as the
constraint, registers self._flush as an observer of eq, and flushes; the
flush only clicks the clock and notifies, it does not change _value. -/
def Parameter.constrain (p : Parameter) (eq : Expr) : Parameter :=
  ⟨p._value, p.const, p.constrained, some eq, true⟩

/-- Parameter.getValue (parameter.py, lines 94-98): if a constraint is
present, evaluate it and store the result in _value first; then return
_value as Argument.getValue does.  The returned pair is the value read
and the updated parameter state; none models an evaluation error raised
by the constraint equation. -/
def Parameter.getValue (p : Parameter) (env : Env) : Option (ℚ × Parameter) :=
  match p.constraint with
  | some eq =>
      match evalExpr eq env with
      | some v => some (v, p.setValue v)
      | none => none
  | none => some (p._value, p)

/-- Parameter.unconstrain (parameter.py, lines 85-92): if constrained,
evaluate the constraint one last time into _value, remove the observer
registration and clear the constraint; then notify (not modelled).  none
models an evaluation error raised by the final evaluation. -/
def Parameter.unconstrain (p : Parameter) (env : Env) : Option Parameter :=
  match p.constraint with
  | some eq =>
      match evalExpr eq env with
      | some v => some ⟨v, p.const, p.constrained, none, false⟩
      | none => none
  | none => some p

/-- Error raised by Constraint.constrain (constraint.py): a ValueError
for a constant parameter, a ValueError for an already constrained
parameter (the specification groups both as ConstraintConflictError), or
a propagated evaluation error from the forced update. -/
inductive ConstrainError where
  | constParameter
  | alreadyConstrained
  | evaluationError
  deriving DecidableEq, Repr

/-- Record stored by a Constraint object (constraint.py): the target
parameter and the equation, both absent on a freshly built Constraint. -/
structure Constraint where
  par : Option Parameter
  eq : Option Expr
  deriving DecidableEq, Repr

/-- Constraint.constrain on a fresh Constraint (constraint.py, lines
43-64): raise if par.const, raise if par.constrained, otherwise set
par.constrained, store par and eq, and run update(), which evaluates eq
and calls par.setValue on the result.  Returns the filled Constraint and
the updated parameter state. -/
def Constraint.constrain (par : Parameter) (eq : Expr) (env : Env) :
    Except ConstrainError (Constraint × Parameter) :=
  if par.const then Except.error ConstrainError.constParameter
  else if par.constrained then Except.error ConstrainError.alreadyConstrained
  else
    let par2 : Parameter := ⟨par._value, par.const, true, par.constraint, par.observed⟩
    match evalExpr eq env with
    | some v =>
        Except.ok (⟨some (par2.setValue v), some eq⟩, par2.setValue v)
    | none => Except.error ConstrainError.evaluationError

/-- C3: Constraint.constrain fails exactly when the target parameter is
constant or already constrained; on success the parameter is marked
constrained, the equation is stored in the Constraint, and one forced
evaluation leaves the parameter value equal to the equation value. -/
theorem constraint_constrain_spec (par : Parameter) (eq : Expr) (env : Env)
    (v : ℚ) (hv : evalExpr eq env = some v) :
    ((∃ e, Constraint.constrain par eq env = Except.error e
          ∧ (e = ConstrainError.constParameter
              ∨ e = ConstrainError.alreadyConstrained))
        ↔ (par.const = true ∨ par.constrained = true))
      ∧ (par.const = false → par.constrained = false →
          Constraint.constrain par eq env
            = Except.ok
                (⟨some ⟨v, false, true, par.constraint, par.observed⟩, some eq⟩,
                  ⟨v, false, true, par.constraint, par.observed⟩)) := by
  constructor
  · constructor
    · rintro ⟨e, he, _⟩
      by_contra hcon
      push_neg at hcon
      obtain ⟨h1, h2⟩ := hcon
      simp [Constraint.constrain, Bool.not_eq_true] at h1 h2
      simp [Constraint.constrain, h1, h2, hv] at he
    · intro h
      rcases h with h | h
      · exact ⟨ConstrainError.constParameter,
          by simp [Constraint.constrain, h], Or.inl rfl⟩
      · by_cases hc : par.const = true
        · exact ⟨ConstrainError.constParameter,
            by simp [Constraint.constrain, hc], Or.inl rfl⟩
        · refine ⟨ConstrainError.alreadyConstrained, ?_, Or.inr rfl⟩
          simp [Bool.not_eq_true] at hc
          simp [Constraint.constrain, hc, h]
  · intro h1 h2
    simp [Constraint.constrain, h1, h2, hv, Parameter.setValue]

/-- C3 witness: constraining a free parameter of value 2 to the constant
equation 7 succeeds and forces the value 7; attempting it on a constant
parameter fails. -/
theorem constraint_constrain_spec_witness :
    Constraint.constrain ⟨2, false, false, none, false⟩ (Expr.const 7) (fun _ => 0)
        = Except.ok
            (⟨some ⟨7, false, true, none, false⟩, some (Expr.const 7)⟩,
              ⟨7, false, true, none, false⟩)
      ∧ (∃ e, Constraint.constrain ⟨2, true, false, none, false⟩ (Expr.const 7)
            (fun _ => 0) = Except.error e
          ∧ (e = ConstrainError.constParameter
              ∨ e = ConstrainError.alreadyConstrained)) :=
  ⟨(constraint_constrain_spec ⟨2, false, false, none, false⟩ (Expr.const 7)
      (fun _ => 0) 7 rfl).2 rfl rfl,
    (constraint_constrain_spec ⟨2, true, false, none, false⟩ (Expr.const 7)
      (fun _ => 0) 7 rfl).1.mpr (Or.inl rfl)⟩

/-- C4: reading a constrained Parameter re-evaluates the constraint
equation, stores the result as the current value and returns it; reading
an unconstrained Parameter returns the stored value and leaves the state
untouched. -/
theorem parameter_getValue_spec (p : Parameter) (env : Env) :
    (∀ eq v, p.constraint = some eq → evalExpr eq env = some v →
        p.getValue env = some (v, p.setValue v))
      ∧ (p.constraint = none → p.getValue env = some (p._value, p)) := by
  constructor
  · intro eq v hc hval
    simp [Parameter.getValue, hc, hval]
  · intro hc
    simp [Parameter.getValue, hc]

/-- C4 witness: after constraining p to the equation 2*q and setting q to
10 in the environment, p.getValue() returns 20 and stores 20. -/
theorem parameter_getValue_spec_witness :
    (Parameter.constrain ⟨1, false, false, none, false⟩
        (Expr.mul (Expr.const 2) (Expr.var "q"))).getValue (fun _ => 10)
      = some (20,
          (Parameter.constrain ⟨1, false, false, none, false⟩
            (Expr.mul (Expr.const 2) (Expr.var "q"))).setValue 20) := by
  have h := (parameter_getValue_spec
      (Parameter.constrain ⟨1, false, false, none, false⟩
        (Expr.mul (Expr.const 2) (Expr.var "q"))) (fun _ => 10)).1
      (Expr.mul (Expr.const 2) (Expr.var "q")) 20 rfl (by norm_num [evalExpr])
  exact h

/-- C5: unconstraining a constrained Parameter evaluates the constraint
one last time, stores the result as the plain value, detaches the
observer registration and clears the constraint; afterwards getValue
returns that last value directly, and a subsequent setValue 5 is
reflected by getValue. -/
theorem parameter_unconstrain_spec (p : Parameter) (eq : Expr) (env : Env)
    (v : ℚ) (hc : p.constraint = some eq) (hv : evalExpr eq env = some v) :
    p.unconstrain env = some ⟨v, p.const, p.constrained, none, false⟩
      ∧ Parameter.getValue ⟨v, p.const, p.constrained, none, false⟩ env
          = some (v, ⟨v, p.const, p.constrained, none, false⟩)
      ∧ Parameter.getValue
            (Parameter.setValue ⟨v, p.const, p.constrained, none, false⟩ 5) env
          = some (5, Parameter.setValue ⟨v, p.const, p.constrained, none, false⟩ 5) := by
  refine ⟨?_, ?_, ?_⟩
  · simp [Parameter.unconstrain, hc, hv]
  · simp [Parameter.getValue]
  · simp [Parameter.getValue, Parameter.setValue]

/-- C5 witness: a parameter constrained to the constant equation 7 is
unconstrained to plain value 7, then reads 7, and reads 5 after
setValue 5. -/
theorem parameter_unconstrain_spec_witness :
    Parameter.unconstrain ⟨1, false, false, some (Expr.const 7), true⟩ (fun _ => 0)
        = some ⟨7, false, false, none, false⟩
      ∧ Parameter.getValue ⟨7, false, false, none, false⟩ (fun _ => 0)
          = some (7, ⟨7, false, false, none, false⟩)
      ∧ Parameter.getValue
            (Parameter.setValue ⟨7, false, false, none, false⟩ 5) (fun _ => 0)
          = some (5, Parameter.setValue ⟨7, false, false, none, false⟩ 5) :=
  parameter_unconstrain_spec ⟨1, false, false, some (Expr.const 7), true⟩
    (Expr.const 7) (fun _ => 0) 7 rfl rfl

/-- Events observable during a visit to a Generator: a call of the
generate hook and the dispatch visitor.onGenerator(self). -/
inductive GenEvent where
  | generateCall
  | onGeneratorCall
  deriving DecidableEq, Repr

/-- State of a Generator (src/diffpy/srfit/equation/literals/Generator.py,
lines 43-49): a name, the optional literal it creates or refreshes, and
the auxiliary literals it depends on.  Literals are referenced by numeric
identity; the clicker is not modelled. -/
structure GenState where
  name : String
  literal : Option Nat
  args : List Nat
  deriving DecidableEq, Repr

/-- Visitor capability used by Generator.identify: the onGenerator
handler Generator.identify dispatches to, transforming a visitor state. -/
structure GenVisitor (σ : Type) where
  onGenerator : GenState → σ → σ

/-- Generator.identify (Generator.py, lines 51-54): the body is exactly
visitor.onGenerator(self); the generator state is not touched and no
other call is made.  The result is the (unchanged) generator together
with the visitor state after the dispatch. -/
def Generator.identify {σ : Type} (g : GenState) (v : GenVisitor σ) (s : σ) :
    GenState × σ :=
  (g, v.onGenerator g s)

/-- Generator.generate (Generator.py, lines 62-72): the default update
policy does nothing; the clicker argument is only offered for the
decision making of subclasses. -/
def Generator.generate (g : GenState) (_clicker : Nat) : GenState :=
  g

/-- Recording visitor whose onGenerator handler appends the dispatch
event to a trace. -/
def recordingGenVisitor : GenVisitor (List GenEvent) :=
  ⟨fun _ s => s ++ [GenEvent.onGeneratorCall]⟩

/-- C6 counterexample: identify on a concrete Generator performs only
the dispatch to onGenerator: the generator state comes back unchanged
(no update policy ran inside identify) and the trace of calls identify
makes contains no generate call; moreover the default generate hook
does nothing. -/
theorem generator_identify_counterexample :
    Generator.identify ⟨"g", none, []⟩ recordingGenVisitor []
        = (⟨"g", none, []⟩, [GenEvent.onGeneratorCall])
      ∧ GenEvent.generateCall
          ∉ (Generator.identify ⟨"g", none, []⟩ recordingGenVisitor []).2
      ∧ Generator.generate ⟨"g", none, []⟩ 0 = ⟨"g", none, []⟩ :=
  ⟨rfl, by decide, rfl⟩

/-- C6 amended: for every visitor, calling identify on a Generator
dispatches visitor.onGenerator(self) directly and does nothing else; it
does not first run the update policy, since the generate hook (a no-op
by default) is invoked only at the discretion of visitors and
subclasses, never by identify. -/
theorem generator_identify_dispatch {σ : Type} (g : GenState)
    (v : GenVisitor σ) (s : σ) (clicker : Nat) :
    Generator.identify g v s = (g, v.onGenerator g s)
      ∧ Generator.generate g clicker = g :=
  ⟨rfl, rfl⟩

/-- Validation of the accessor arguments of ParameterWrapper.__init__
(src/diffpy/srfit/fitbase/parameter.py, lines 217-220): raise ValueError
when getter, setter and attr are all None, then raise ValueError when
exactly one of getter and setter is None; otherwise the construction
proceeds.  G, S and A stand for the types of the getter, the setter and
the attribute key. -/
def parameterWrapperInitCheck {G S A : Type} (getter : Option G)
    (setter : Option S) (attr : Option A) : Except String Unit :=
  if getter.isNone && setter.isNone && attr.isNone then
    Except.error "Specify attribute access"
  else if getter.isNone != setter.isNone then
    Except.error "Specify both getter and setter"
  else Except.ok ()

/-- C7: constructing a ParameterWrapper fails with ValueError exactly
when precisely one of getter and setter is supplied or when getter,
setter and the attribute key are all absent; supplying both accessors
without a key, a key alone, or a key together with both accessors all
pass the check. -/
theorem parameterWrapper_init_check_spec {G S A : Type} (getter : Option G)
    (setter : Option S) (attr : Option A) (g : G) (s : S) (a : A) :
    ((∃ e, parameterWrapperInitCheck getter setter attr = Except.error e)
        ↔ (getter.isSome ≠ setter.isSome
            ∨ (getter = none ∧ setter = none ∧ attr = none)))
      ∧ parameterWrapperInitCheck (some g) (some s) (none : Option A)
          = Except.ok ()
      ∧ parameterWrapperInitCheck (none : Option G) (none : Option S) (some a)
          = Except.ok ()
      ∧ parameterWrapperInitCheck (some g) (some s) (some a) = Except.ok () := by
  refine ⟨?_, by simp [parameterWrapperInitCheck],
    by simp [parameterWrapperInitCheck], by simp [parameterWrapperInitCheck]⟩
  cases getter <;> cases setter <;> cases attr <;>
    simp [parameterWrapperInitCheck]

/-- Calls observable from ParameterWrapper.setValue: the setter
invocation and the notify broadcast. -/
inductive WrapperEvent where
  | setterCall
  | notifyCall
  deriving DecidableEq, Repr

/-- ParameterWrapper.setValue (parameter.py, lines 247-252) over a
wrapped object of type Obj with resolved accessors: if the new value
differs from getter(obj), which is what getValue returns, call
setter(obj, value) and then notify; otherwise do nothing.  Returns the
new object state and the ordered list of calls made. -/
def parameterWrapperSetValue {Obj : Type} (getter : Obj → ℚ)
    (setter : Obj → ℚ → Obj) (obj : Obj) (value : ℚ) :
    Obj × List WrapperEvent :=
  if value ≠ getter obj then
    (setter obj value, [WrapperEvent.setterCall, WrapperEvent.notifyCall])
  else (obj, [])

/-- C9: setting a ParameterWrapper to the value the wrapped object
already holds calls neither the setter nor notify and leaves the object
untouched; setting a different value invokes the setter and then notify
on the updated object. -/
theorem parameterWrapper_setValue_frame {Obj : Type} (getter : Obj → ℚ)
    (setter : Obj → ℚ → Obj) (obj : Obj) (value : ℚ) :
    (value = getter obj →
        parameterWrapperSetValue getter setter obj value = (obj, []))
      ∧ (value ≠ getter obj →
        parameterWrapperSetValue getter setter obj value
          = (setter obj value,
              [WrapperEvent.setterCall, WrapperEvent.notifyCall])) := by
  constructor
  · intro h
    simp [parameterWrapperSetValue, h]
  · intro h
    simp [parameterWrapperSetValue, h]

/-- C9 witness: wrapping a rational object holding 3 with identity
accessors, setting 3 is a no-op with no calls, while setting 4 calls the
setter and then notify. -/
theorem parameterWrapper_setValue_frame_witness :
    parameterWrapperSetValue (fun x : ℚ => x) (fun _ v => v) 3 3 = (3, [])
      ∧ parameterWrapperSetValue (fun x : ℚ => x) (fun _ v => v) 3 4
          = (4, [WrapperEvent.setterCall, WrapperEvent.notifyCall]) :=
  ⟨(parameterWrapper_setValue_frame (fun x : ℚ => x) (fun _ v => v) 3 3).1 rfl,
    (parameterWrapper_setValue_frame (fun x : ℚ => x) (fun _ v => v) 3 4).2
      (by norm_num)⟩

/-- Tags for the unbound operations the Printer recognises
(diffpy.srfit.adapters.nodes, not under src/): the five binary symbols,
negative, and other for every remaining operation, which is identified
only by its display name. -/
inductive OpKind where
  | add
  | subtract
  | multiply
  | divide
  | power
  | negative
  | other
  deriving DecidableEq, Repr

/-- Nodes of the adapter graphs walked by src/diffpy/srfit/util/visitors.py.
The node classes live in diffpy.srfit.adapters.nodes, which is not under
src/; this data model is taken from their use in util/visitors.py (the
fields _constraint of a parameter, _args, _kw and _unbound of an
operator, adapters of a container, and name and value of a leaf) and the
node model of the specification.  Reference identity is modelled by a
numeric id carried by every node. -/
inductive VNode where
  | param (id : Nat) (name : Option String) (value : ℚ)
      (constraint : Option VNode)
  | oper (id : Nat) (name : String) (unbound : OpKind) (args : List VNode)
      (kw : List (String × VNode))
  | container (id : Nat) (name : Option String) (value : ℚ)
      (adapters : List VNode)

/-- Identity of a node. -/
def nodeId : VNode → Nat
  | VNode.param i _ _ _ => i
  | VNode.oper i _ _ _ _ => i
  | VNode.container i _ _ _ => i

/-- Truth of a node being a Parameter leaf (the onParameter case of the
visitor dispatch). -/
def isParamNode : VNode → Bool
  | VNode.param _ _ _ _ => true
  | VNode.oper _ _ _ _ _ => false
  | VNode.container _ _ _ _ => false

mutual
/-- All nodes reachable from a node by the descent the getter visitors
perform: a node itself, a parameter's constraint equation, an operator's
positional then keyword children, a container's adapters. -/
def reachableNodes : VNode → List VNode
  | VNode.param i n v c => VNode.param i n v c :: reachableOpt c
  | VNode.oper i n u args kw =>
      VNode.oper i n u args kw :: (reachableList args ++ reachableKw kw)
  | VNode.container i n v ads =>
      VNode.container i n v ads :: reachableList ads
/-- Nodes reachable through an optional constraint. -/
def reachableOpt : Option VNode → List VNode
  | none => []
  | some t => reachableNodes t
/-- Nodes reachable through a list of children, in order. -/
def reachableList : List VNode → List VNode
  | [] => []
  | t :: ts => reachableNodes t ++ reachableList ts
/-- Nodes reachable through the values of a keyword-child list. -/
def reachableKw : List (String × VNode) → List VNode
  | [] => []
  | (_, t) :: ts => reachableNodes t ++ reachableKw ts
end

/-- Identity set of a list of nodes: the Python set of visited objects,
modelled as the finite set of their identities. -/
def idSet (l : List VNode) : Finset Nat := (l.map nodeId).toFinset

theorem idSet_nil : idSet [] = ∅ := rfl

theorem idSet_cons (a : VNode) (l : List VNode) :
    idSet (a :: l) = insert (nodeId a) (idSet l) := by
  simp [idSet]

theorem idSet_append (l₁ l₂ : List VNode) :
    idSet (l₁ ++ l₂) = idSet l₁ ∪ idSet l₂ := by
  simp [idSet]

theorem nodeId_mem_idSet {l : List VNode} {y : VNode} (h : y ∈ l) :
    nodeId y ∈ idSet l := by
  simp only [idSet, List.mem_toFinset, List.mem_map]
  exact ⟨y, h, rfl⟩

mutual
/-- FilterGetter traversal (util/visitors.py, lines 25-56): every
visited node passing the filter is added to vals; a Parameter node then
descends into its constraint when present, an Operator into its
positional then keyword children, a Container into its adapters. -/
def fgNode (filt : VNode → Bool) : VNode → Finset Nat → Finset Nat
  | VNode.param i n v c, s =>
      fgOpt filt c (if filt (VNode.param i n v c) then insert i s else s)
  | VNode.oper i n u args kw, s =>
      fgKw filt kw (fgList filt args
        (if filt (VNode.oper i n u args kw) then insert i s else s))
  | VNode.container i n v ads, s =>
      fgList filt ads
        (if filt (VNode.container i n v ads) then insert i s else s)
/-- FilterGetter descent into an optional constraint. -/
def fgOpt (filt : VNode → Bool) : Option VNode → Finset Nat → Finset Nat
  | none, s => s
  | some t, s => fgNode filt t s
/-- FilterGetter descent into a child list. -/
def fgList (filt : VNode → Bool) : List VNode → Finset Nat → Finset Nat
  | [], s => s
  | t :: ts, s => fgList filt ts (fgNode filt t s)
/-- FilterGetter descent into the values of a keyword-child list. -/
def fgKw (filt : VNode → Bool) :
    List (String × VNode) → Finset Nat → Finset Nat
  | [], s => s
  | (_, t) :: ts, s => fgKw filt ts (fgNode filt t s)
end

mutual
/-- ParameterGetter traversal (util/visitors.py, lines 61-90): only
Parameter nodes passing the filter are added to vals; a Parameter
descends into its constraint when present, an Operator into its
positional then keyword children, a Container into its adapters. -/
def pgNode (filt : VNode → Bool) : VNode → Finset Nat → Finset Nat
  | VNode.param i n v c, s =>
      pgOpt filt c (if filt (VNode.param i n v c) then insert i s else s)
  | VNode.oper _ _ _ args kw, s => pgKw filt kw (pgList filt args s)
  | VNode.container _ _ _ ads, s => pgList filt ads s
/-- ParameterGetter descent into an optional constraint. -/
def pgOpt (filt : VNode → Bool) : Option VNode → Finset Nat → Finset Nat
  | none, s => s
  | some t, s => pgNode filt t s
/-- ParameterGetter descent into a child list. -/
def pgList (filt : VNode → Bool) : List VNode → Finset Nat → Finset Nat
  | [], s => s
  | t :: ts, s => pgList filt ts (pgNode filt t s)
/-- ParameterGetter descent into the values of a keyword-child list. -/
def pgKw (filt : VNode → Bool) :
    List (String × VNode) → Finset Nat → Finset Nat
  | [], s => s
  | (_, t) :: ts, s => pgKw filt ts (pgNode filt t s)
end

mutual
theorem fgNode_collects (filt : VNode → Bool) :
    ∀ (t : VNode) (s : Finset Nat),
      fgNode filt t s = s ∪ idSet ((reachableNodes t).filter filt)
  | VNode.param i n v c, s => by
      by_cases hf : filt (VNode.param i n v c) = true
      · simp [fgNode, fgOpt_collects filt c, reachableNodes, List.filter_cons,
          hf, idSet_cons, nodeId, Finset.insert_union, Finset.union_insert]
      · simp [fgNode, fgOpt_collects filt c, reachableNodes, List.filter_cons, hf]
  | VNode.oper i n u args kw, s => by
      by_cases hf : filt (VNode.oper i n u args kw) = true
      · simp [fgNode, fgList_collects filt args, fgKw_collects filt kw,
          reachableNodes, List.filter_cons, List.filter_append, hf, idSet_cons,
          idSet_append, nodeId, Finset.insert_union, Finset.union_insert,
          Finset.union_assoc]
      · simp [fgNode, fgList_collects filt args, fgKw_collects filt kw,
          reachableNodes, List.filter_cons, List.filter_append, hf,
          idSet_append, Finset.union_assoc]
  | VNode.container i n v ads, s => by
      by_cases hf : filt (VNode.container i n v ads) = true
      · simp [fgNode, fgList_collects filt ads, reachableNodes,
          List.filter_cons, hf, idSet_cons, nodeId, Finset.insert_union,
          Finset.union_insert]
      · simp [fgNode, fgList_collects filt ads, reachableNodes,
          List.filter_cons, hf]
theorem fgOpt_collects (filt : VNode → Bool) :
    ∀ (c : Option VNode) (s : Finset Nat),
      fgOpt filt c s = s ∪ idSet ((reachableOpt c).filter filt)
  | none, s => by simp [fgOpt, reachableOpt, idSet_nil]
  | some t, s => by simp [fgOpt, reachableOpt, fgNode_collects filt t]
theorem fgList_collects (filt : VNode → Bool) :
    ∀ (ts : List VNode) (s : Finset Nat),
      fgList filt ts s = s ∪ idSet ((reachableList ts).filter filt)
  | [], s => by simp [fgList, reachableList, idSet_nil]
  | t :: ts, s => by
      simp [fgList, fgNode_collects filt t, fgList_collects filt ts,
        reachableList, List.filter_append, idSet_append, Finset.union_assoc]
theorem fgKw_collects (filt : VNode → Bool) :
    ∀ (ts : List (String × VNode)) (s : Finset Nat),
      fgKw filt ts s = s ∪ idSet ((reachableKw ts).filter filt)
  | [], s => by simp [fgKw, reachableKw, idSet_nil]
  | (k, t) :: ts, s => by
      simp [fgKw, fgNode_collects filt t, fgKw_collects filt ts,
        reachableKw, List.filter_append, idSet_append, Finset.union_assoc]
end

mutual
theorem pgNode_collects (filt : VNode → Bool) :
    ∀ (t : VNode) (s : Finset Nat),
      pgNode filt t s
        = s ∪ idSet ((reachableNodes t).filter (fun m => isParamNode m && filt m))
  | VNode.param i n v c, s => by
      by_cases hf : filt (VNode.param i n v c) = true
      · simp [pgNode, pgOpt_collects filt c, reachableNodes, List.filter_cons,
          hf, isParamNode, idSet_cons, nodeId, Finset.insert_union,
          Finset.union_insert]
      · simp [pgNode, pgOpt_collects filt c, reachableNodes, List.filter_cons,
          hf, isParamNode]
  | VNode.oper i n u args kw, s => by
      simp [pgNode, pgList_collects filt args, pgKw_collects filt kw,
        reachableNodes, List.filter_cons, List.filter_append, isParamNode,
        idSet_append, Finset.union_assoc]
  | VNode.container i n v ads, s => by
      simp [pgNode, pgList_collects filt ads, reachableNodes,
        List.filter_cons, isParamNode]
theorem pgOpt_collects (filt : VNode → Bool) :
    ∀ (c : Option VNode) (s : Finset Nat),
      pgOpt filt c s
        = s ∪ idSet ((reachableOpt c).filter (fun m => isParamNode m && filt m))
  | none, s => by simp [pgOpt, reachableOpt, idSet_nil]
  | some t, s => by simp [pgOpt, reachableOpt, pgNode_collects filt t]
theorem pgList_collects (filt : VNode → Bool) :
    ∀ (ts : List VNode) (s : Finset Nat),
      pgList filt ts s
        = s ∪ idSet ((reachableList ts).filter (fun m => isParamNode m && filt m))
  | [], s => by simp [pgList, reachableList, idSet_nil]
  | t :: ts, s => by
      simp [pgList, pgNode_collects filt t, pgList_collects filt ts,
        reachableList, List.filter_append, idSet_append, Finset.union_assoc]
theorem pgKw_collects (filt : VNode → Bool) :
    ∀ (ts : List (String × VNode)) (s : Finset Nat),
      pgKw filt ts s
        = s ∪ idSet ((reachableKw ts).filter (fun m => isParamNode m && filt m))
  | [], s => by simp [pgKw, reachableKw, idSet_nil]
  | (k, t) :: ts, s => by
      simp [pgKw, pgNode_collects filt t, pgKw_collects filt ts,
        reachableKw, List.filter_append, idSet_append, Finset.union_assoc]
end

mutual
theorem reachableNodes_trans : ∀ (t : VNode), ∀ x ∈ reachableNodes t,
    ∀ y ∈ reachableNodes x, y ∈ reachableNodes t
  | VNode.param i n v c, x, hx, y, hy => by
      simp only [reachableNodes] at hx ⊢
      rcases List.mem_cons.mp hx with h | h
      · subst h
        simp only [reachableNodes] at hy
        exact hy
      · exact List.mem_cons_of_mem _ (reachableOpt_trans c x h y hy)
  | VNode.oper i n u args kw, x, hx, y, hy => by
      simp only [reachableNodes] at hx ⊢
      rcases List.mem_cons.mp hx with h | h
      · subst h
        simp only [reachableNodes] at hy
        exact hy
      · rcases List.mem_append.mp h with h2 | h2
        · exact List.mem_cons_of_mem _
            (List.mem_append_left _ (reachableList_trans args x h2 y hy))
        · exact List.mem_cons_of_mem _
            (List.mem_append_right _ (reachableKw_trans kw x h2 y hy))
  | VNode.container i n v ads, x, hx, y, hy => by
      simp only [reachableNodes] at hx ⊢
      rcases List.mem_cons.mp hx with h | h
      · subst h
        simp only [reachableNodes] at hy
        exact hy
      · exact List.mem_cons_of_mem _ (reachableList_trans ads x h y hy)
theorem reachableOpt_trans : ∀ (c : Option VNode), ∀ x ∈ reachableOpt c,
    ∀ y ∈ reachableNodes x, y ∈ reachableOpt c
  | none, x, hx, y, hy => by
      simp only [reachableOpt] at hx
      exact absurd hx (List.not_mem_nil x)
  | some t, x, hx, y, hy => by
      simp only [reachableOpt] at hx ⊢
      exact reachableNodes_trans t x hx y hy
theorem reachableList_trans : ∀ (ts : List VNode), ∀ x ∈ reachableList ts,
    ∀ y ∈ reachableNodes x, y ∈ reachableList ts
  | [], x, hx, y, hy => by
      simp only [reachableList] at hx
      exact absurd hx (List.not_mem_nil x)
  | t :: ts, x, hx, y, hy => by
      simp only [reachableList] at hx ⊢
      rcases List.mem_append.mp hx with h | h
      · exact List.mem_append_left _ (reachableNodes_trans t x h y hy)
      · exact List.mem_append_right _ (reachableList_trans ts x h y hy)
theorem reachableKw_trans : ∀ (ts : List (String × VNode)),
    ∀ x ∈ reachableKw ts, ∀ y ∈ reachableNodes x, y ∈ reachableKw ts
  | [], x, hx, y, hy => by
      simp only [reachableKw] at hx
      exact absurd hx (List.not_mem_nil x)
  | (k, t) :: ts, x, hx, y, hy => by
      simp only [reachableKw] at hx ⊢
      rcases List.mem_append.mp hx with h | h
      · exact List.mem_append_left _ (reachableNodes_trans t x h y hy)
      · exact List.mem_append_right _ (reachableKw_trans ts x h y hy)
end

/-- C10: starting from an empty vals set, the FilterGetter collects
exactly the identities of the reachable nodes passing the filter and the
ParameterGetter exactly the identities of the reachable Parameter nodes
passing the filter, where reachability descends into a visited
parameter's constraint equation; consequently every parameter reachable
only through the constraint of a constrained parameter is still
collected, and each collected node appears exactly once, as a set keyed
by identity. -/
theorem getters_descend_constraints (filt : VNode → Bool) (t : VNode) :
    fgNode filt t ∅ = idSet ((reachableNodes t).filter filt)
      ∧ pgNode filt t ∅
          = idSet ((reachableNodes t).filter (fun m => isParamNode m && filt m))
      ∧ ∀ x ∈ reachableNodes t, ∀ y ∈ reachableNodes x,
          isParamNode y = true → filt y = true →
          nodeId y ∈ pgNode filt t ∅ ∧ nodeId y ∈ fgNode filt t ∅ := by
  have h1 := fgNode_collects filt t ∅
  have h2 := pgNode_collects filt t ∅
  rw [Finset.empty_union] at h1 h2
  refine ⟨h1, h2, ?_⟩
  intro x hx y hy hp hf
  have hyt : y ∈ reachableNodes t := reachableNodes_trans t x hx y hy
  constructor
  · rw [h2]
    exact nodeId_mem_idSet (List.mem_filter.mpr ⟨hyt, by simp [hp, hf]⟩)
  · rw [h1]
    exact nodeId_mem_idSet (List.mem_filter.mpr ⟨hyt, hf⟩)

/-- Example graph for the getter witness: an addition operator over a
parameter p, whose constraint equation is the parameter q, and a free
parameter r; q is reachable only through the constraint of p. -/
def constraintTree : VNode :=
  VNode.oper 10 "plus" OpKind.add
    [VNode.param 11 (some "p") 1 (some (VNode.param 12 (some "q") 2 none)),
      VNode.param 13 (some "r") 3 none]
    []

/-- C10 witness: on the example graph, the parameter q (identity 12),
reachable only through the constraint of p, is collected by the
ParameterGetter and the FilterGetter with the trivial filter. -/
theorem getters_descend_constraints_witness :
    nodeId (VNode.param 12 (some "q") 2 none)
        ∈ pgNode (fun _ => true) constraintTree ∅
      ∧ nodeId (VNode.param 12 (some "q") 2 none)
        ∈ fgNode (fun _ => true) constraintTree ∅ :=
  (getters_descend_constraints (fun _ => true) constraintTree).2.2
    (VNode.param 11 (some "p") 1 (some (VNode.param 12 (some "q") 2 none)))
    (by simp [constraintTree, reachableNodes, reachableList, reachableKw,
      reachableOpt])
    (VNode.param 12 (some "q") 2 none)
    (by simp [reachableNodes, reachableOpt])
    rfl rfl

/-- Symbol table of the binary operations the Printer renders between
their operands (util/visitors.py, lines 144-150). -/
def binarySymbol : OpKind → Option String
  | OpKind.add => some "+"
  | OpKind.subtract => some "-"
  | OpKind.multiply => some "*"
  | OpKind.divide => some "/"
  | OpKind.power => some "**"
  | _ => none

/-- Symbol table of the unary operations the Printer renders before
their operand (util/visitors.py, lines 151-153). -/
def unarySymbol : OpKind → Option String
  | OpKind.negative => some "-"
  | _ => none

/-- Truth of a string starting with the given character, modelling the
Python startswith on a one-character argument. -/
def strStartsWith (s : String) (c : Char) : Bool :=
  s.data.head? == some c

/-- Truth of a string ending with the given character, modelling the
Python endswith on a one-character argument. -/
def strEndsWith (s : String) (c : Char) : Bool :=
  s.data.getLast? == some c

/-- Rendering of a leaf by Printer.onParameter (util/visitors.py, lines
165-170): a missing or underscore-prefixed name prints the value,
otherwise the name.  Values are printed with the standard rational
rendering, standing in for the Python str of the stored number. -/
def leafStr (n : Option String) (v : ℚ) : String :=
  match n with
  | none => toString v
  | some s => if strStartsWith s '_' then toString v else s

/-- Parenthesization at each operator boundary (util/visitors.py, lines
196-197): wrap unless the rendering already starts with an opening and
ends with a closing parenthesis. -/
def wrapParens (s : String) : String :=
  if strStartsWith s '(' && strEndsWith s ')' then s else "(" ++ s ++ ")"

mutual
/-- Printer dispatch (util/visitors.py, lines 165-214) as a function
from the visited node and the output accumulated so far to the new
output.  A leaf or container appends its leaf rendering.  An operator
saves the incoming output as instr and renders into a fresh output: a
known binary symbol renders the first operand, the spaced symbol and the
second operand; negative renders the symbol followed by the operand; any
other operator appends its name to instr and renders the positional
children separated by commas followed by the keyword children, each
preceded by a comma, its keyword and an equals sign only when the number
of positional children is non-zero; the fresh output is then
parenthesized by wrapParens and appended to instr.  none models the
IndexError a malformed binary or unary operator with too few children
would raise. -/
def prNode : VNode → String → Option String
  | VNode.param _ n v _, out => some (out ++ leafStr n v)
  | VNode.container _ n v _, out => some (out ++ leafStr n v)
  | VNode.oper _ name u args kw, out =>
      match binarySymbol u with
      | some sym =>
          match args with
          | a :: b :: _ =>
              match prNode a "" with
              | some s1 =>
                  match prNode b (s1 ++ " " ++ sym ++ " ") with
                  | some body => some (out ++ wrapParens body)
                  | none => none
              | none => none
          | _ => none
      | none =>
          match unarySymbol u with
          | some sym =>
              match args with
              | a :: _ =>
                  match prNode a sym with
                  | some body => some (out ++ wrapParens body)
                  | none => none
              | _ => none
          | none =>
              match prArgs args 0 "" with
              | some s1 =>
                  match prKw kw args.length s1 with
                  | some body => some (out ++ name ++ wrapParens body)
                  | none => none
              | none => none
/-- The positional-argument loop of the generic operator branch
(util/visitors.py, lines 187-191): a comma separator before every
argument except the first, and numargs incremented per argument. -/
def prArgs : List VNode → Nat → String → Option String
  | [], _, s => some s
  | a :: as, numargs, s =>
      match prNode a (if numargs != 0 then s ++ ", " else s) with
      | some s2 => prArgs as (numargs + 1) s2
      | none => none
/-- The keyword-argument loop of the generic operator branch
(util/visitors.py, lines 192-194): a comma, the keyword and an equals
sign before the argument, but only when numargs is non-zero, and
numargs never incremented inside this loop. -/
def prKw : List (String × VNode) → Nat → String → Option String
  | [], _, s => some s
  | (k, a) :: as, numargs, s =>
      match prNode a (if numargs != 0 then s ++ ", " ++ k ++ " = " else s) with
      | some s2 => prKw as numargs s2
      | none => none
end

/-- Rendering of a whole node tree: the Printer starts from an empty
output and the root identifies itself to it. -/
def printNode (t : VNode) : Option String :=
  prNode t ""

/-- C8: rendering behaviour of the Printer at the keyword-argument slip.
An infix operator renders with the spaced symbol between its operands
and negative renders before its operand, as documented; an operator with
a positional and a keyword argument prints in the documented
name(arg, kw = val) form; but an operator carrying only keyword
arguments loses both the keyword prefix and the separators, because
numargs stays zero through the keyword loop: the application of f to the
single keyword argument x bound to a prints as f(a) and not as f(x = a),
and with two keyword arguments the values are concatenated with no
separator at all. -/
theorem printer_keyword_only_slip :
    printNode (VNode.oper 1 "f" OpKind.other []
        [("x", VNode.param 2 (some "a") 0 none)]) = some "f(a)"
      ∧ some "f(a)" ≠ some "f(x = a)"
      ∧ printNode (VNode.oper 1 "f" OpKind.other []
          [("x", VNode.param 2 (some "a") 0 none),
            ("y", VNode.param 3 (some "b") 0 none)]) = some "f(ab)"
      ∧ printNode (VNode.oper 1 "f" OpKind.other
          [VNode.param 4 (some "c") 0 none]
          [("x", VNode.param 2 (some "a") 0 none)]) = some "f(c, x = a)"
      ∧ printNode (VNode.oper 5 "add" OpKind.add
          [VNode.param 6 (some "a") 0 none, VNode.param 7 (some "b") 0 none]
          []) = some "(a + b)"
      ∧ printNode (VNode.oper 8 "negative" OpKind.negative
          [VNode.param 9 (some "a") 0 none] []) = some "(-a)" := by
  refine ⟨?_, by decide, ?_, ?_, ?_, ?_⟩
  all_goals
    simp only [printNode, prNode, prArgs, prKw, binarySymbol, unarySymbol,
      leafStr, wrapParens, List.length]
    decide
